import Mathlib

/-!
Verification development for the wyvern helper module of opensea-js
(src/wyvern.ts). The module is shallowly embedded: the arbitrary precision
decimal numbers of bignumber.js are modelled by the rationals, byte buffers
by lists of naturals, and the asynchronous poller by an explicit state and a
fuel-indexed loop. Each exported helper of the source file that the claims
touch is translated to a Lean definition of the same name.
-/

namespace Wyvern

/-- Constant NULL_BLOCK_HASH from wyvern.ts. -/
def NULL_BLOCK_HASH : String :=
  "0x0000000000000000000000000000000000000000000000000000000000000000"

/-- Constant INVERSE_BASIS_POINT from wyvern.ts. -/
def INVERSE_BASIS_POINT : ℕ := 10000

/-! Decimal-string codec: the model of how bignumber.js parses the decimal
integer strings that the wire invariant guarantees for the monetary and time
fields, and of how toString prints such values back. -/

/-- Numeric value of an ASCII decimal digit character. -/
def digitVal (c : Char) : ℕ := c.toNat - 48

/-- ASCII character of a decimal digit. -/
def digitChar (d : ℕ) : Char := Char.ofNat (48 + d)

/-- Parse a decimal digit string into a natural number, most significant
digit first (JavaScript BigNumber(string) on integer input). -/
def parseDecimalNat (s : String) : ℕ :=
  s.data.foldl (fun a c => 10 * a + digitVal c) 0

/-- Print a natural number as its decimal digit string
(JavaScript BigNumber.toString on a non-negative integer value). -/
def natToDecimalString (n : ℕ) : String :=
  if n = 0 then "0" else ⟨((Nat.digits 10 n).reverse.map digitChar)⟩

/-- Model of the BigNumber constructor on a wire string holding a
non-negative decimal integer. -/
def bigNumberOfString (s : String) : ℚ := (parseDecimalNat s : ℚ)

/-- Model of BigNumber.toString for the non-negative integer values carried
by wire orders. -/
def bigNumberToString (q : ℚ) : String := natToDecimalString q.num.toNat

/-- Lowercasing of a string, the model of String.prototype.toLowerCase on
the ASCII addresses this module handles. -/
def asLowercase (s : String) : String := ⟨s.data.map Char.toLower⟩

/-! Order data model. The TypeScript enums OrderSide, SaleKind, FeeMethod
and HowToCall are numeric; they are modelled by naturals with the named
constants below, exactly the values of the TypeScript enum members. -/

/-- OrderSide.Buy = 0 in the TypeScript enum. -/
def OrderSide.Buy : ℕ := 0

/-- OrderSide.Sell = 1 in the TypeScript enum. -/
def OrderSide.Sell : ℕ := 1

/-- SaleKind.FixedPrice = 0 in the TypeScript enum. -/
def SaleKind.FixedPrice : ℕ := 0

/-- SaleKind.DutchAuction = 1 in the TypeScript enum. -/
def SaleKind.DutchAuction : ℕ := 1

/-- Wire account object embedded in the current JSON schema (maker, taker
and fee_recipient of a wire order); address is the field the adapter reads,
config stands for the remaining payload of the account object. -/
structure WireAccount where
  address : String
  config : String
deriving DecidableEq, Repr

/-- In-memory Order record of wyvern.ts (types.ts), with BigNumber fields
modelled as rationals and the enum fields as naturals. -/
structure Order where
  hash : String
  cancelledOrFinalized : Bool
  markedInvalid : Bool
  metadata : String
  exchange : String
  makerAccount : WireAccount
  takerAccount : WireAccount
  feeRecipientAccount : WireAccount
  maker : String
  taker : String
  makerRelayerFee : ℚ
  takerRelayerFee : ℚ
  makerProtocolFee : ℚ
  takerProtocolFee : ℚ
  feeMethod : ℕ
  feeRecipient : String
  side : ℕ
  saleKind : ℕ
  target : String
  howToCall : ℕ
  calldata : String
  replacementPattern : String
  staticTarget : String
  staticExtradata : String
  paymentToken : String
  basePrice : ℚ
  extra : ℚ
  listingTime : ℚ
  expirationTime : ℚ
  salt : ℚ
  v : ℕ
  r : String
  s : String
  asset : String
  currentPrice : Option ℚ
deriving DecidableEq, Repr

/-- The exactPrice local of estimateCurrentPrice in wyvern.ts: basePrice for
a fixed-price sale, the linear interpolation for a Dutch auction, where
now = Date.now() / 1000 minus secondsToBacktrack. dateNowSeconds stands for
the wall clock reading Date.now() / 1000. -/
def exactPriceOf (order : Order) (dateNowSeconds secondsToBacktrack : ℚ) : ℚ :=
  let now := dateNowSeconds - secondsToBacktrack
  if order.saleKind = SaleKind.FixedPrice then
    order.basePrice
  else if order.saleKind = SaleKind.DutchAuction then
    let diff := order.extra * (now - order.listingTime) /
      (order.expirationTime - order.listingTime)
    if order.side = OrderSide.Sell then order.basePrice - diff
    else order.basePrice + diff
  else
    order.basePrice

/-- estimateCurrentPrice from wyvern.ts: the exact price, rounded toward
positive infinity when shouldRoundUp is set (the source defaults are
secondsToBacktrack = 30 and shouldRoundUp = true; here both are explicit). -/
def estimateCurrentPrice (order : Order) (dateNowSeconds secondsToBacktrack : ℚ)
    (shouldRoundUp : Bool) : ℚ :=
  let exactPrice := exactPriceOf order dateNowSeconds secondsToBacktrack
  if shouldRoundUp then (⌈exactPrice⌉ : ℚ) else exactPrice

/-! Signature codec. The input signature is modelled as its byte buffer
(ethUtil.toBuffer of the hex string): a list of naturals below 256. -/

/-- ECSignature record: recovery id v and the hex encodings of r and s,
modelled as the corresponding byte slices. -/
structure ECSignature where
  v : ℕ
  r : List ℕ
  s : List ℕ
deriving DecidableEq, Repr

/-- The inner helper parseSignatureHexAsVRS of parseSignatureHex: first
byte is v (adding 27 when the raw byte is below 27), bytes 1 to 32 are r,
bytes 33 to 64 are s. -/
def parseSignatureHexAsVRS (sig : List ℕ) : ECSignature :=
  let v0 := sig.getD 0 0
  let v := if v0 < 27 then v0 + 27 else v0
  { v := v, r := (sig.drop 1).take 32, s := (sig.drop 33).take 32 }

/-- The inner helper parseSignatureHexAsRSV of parseSignatureHex.
Modelled from the spec: it delegates to ethUtil.fromRpcSig, whose source is
outside this repository; per the spec it parses the 65-byte buffer in the
r then s then v layout: bytes 0 to 31 are r, bytes 32 to 63 are s, byte 64
is v. -/
def parseSignatureHexAsRSV (sig : List ℕ) : ECSignature :=
  { v := sig.getD 64 0, r := sig.take 32, s := (sig.drop 32).take 32 }

/-- The list validVParamValues of parseSignatureHex. -/
def validVParamValues : List ℕ := [27, 28]

/-- parseSignatureHex from wyvern.ts: try the r,s,v layout, accept when its
v is 27 or 28; otherwise try the v,r,s layout, accept when its v is 27 or
28; otherwise fail with the Invalid signature error. -/
def parseSignatureHex (sig : List ℕ) : Except String ECSignature :=
  let ecSignatureRSV := parseSignatureHexAsRSV sig
  if ecSignatureRSV.v ∈ validVParamValues then .ok ecSignatureRSV
  else
    let ecSignatureVRS := parseSignatureHexAsVRS sig
    if ecSignatureVRS.v ∈ validVParamValues then .ok ecSignatureVRS
    else .error "Invalid signature"

/-! Transaction confirmation tracker. The module-level object txCallbacks
is modelled as an association list from transaction hash to the ordered
list of registered callbacks; callbacks are opaque and modelled by natural
number labels. -/

/-- The txCallbacks registry: hash to ordered callback list, in insertion
order as a JavaScript object of callback arrays. -/
abbrev TxCallbacks : Type := List (String × List ℕ)

/-- Lookup of txCallbacks[txHash]. -/
def lookupCallbacks (m : TxCallbacks) (txHash : String) : Option (List ℕ) :=
  match m with
  | [] => none
  | p :: rest => if p.1 = txHash then some p.2 else lookupCallbacks rest txHash

/-- The registration part of track in wyvern.ts: when the hash is already
tracked, append the callback to its list and start no poller; otherwise
create the single-element list and start a poller. The boolean of the
result records whether a new poll loop was started. -/
def track (m : TxCallbacks) (txHash : String) (onFinalized : ℕ) :
    TxCallbacks × Bool :=
  match lookupCallbacks m txHash with
  | some _ =>
      (m.map (fun p => if p.1 = txHash then (p.1, p.2 ++ [onFinalized]) else p),
       false)
  | none => (m ++ [(txHash, [onFinalized])], true)

/-- The notification step of the poll loop in track: once the terminal
status is known, every callback registered for the hash is invoked with the
status (the returned invocation list, in registration order), and the
entry is deleted from the registry. -/
def finalizePoll (m : TxCallbacks) (txHash : String) (status : Bool) :
    List (ℕ × Bool) × TxCallbacks :=
  (((lookupCallbacks m txHash).getD []).map (fun cb => (cb, status)),
   m.filter (fun p => ¬ p.1 = txHash))

/-- The web3 transaction lookup result the poll loop inspects: blockHash is
null (none) or a string. -/
structure TxLookup where
  blockHash : Option String
deriving DecidableEq, Repr

/-- A transaction receipt; status is the numeric status field, absent when
the node omits it (receipt.status falsy reads as 0 in the source). -/
structure Receipt where
  status : Option ℕ
deriving DecidableEq, Repr

/-- The truthiness test of the poll loop: tx && tx.blockHash &&
tx.blockHash !== NULL_BLOCK_HASH (an empty string blockHash is falsy). -/
def txIncluded (t : Option TxLookup) : Bool :=
  match t with
  | none => false
  | some tx =>
    match tx.blockHash with
    | none => false
    | some bh => bh ≠ "" && bh ≠ NULL_BLOCK_HASH

/-- The success determination of the poll loop: with a receipt, success iff
parseInt(receipt.status || "0") equals 1; without a receipt, success is
assumed. -/
def receiptSuccess (receipt : Option Receipt) : Bool :=
  match receipt with
  | none => true
  | some rc => (rc.status.getD 0) = 1

/-- The poll loop of track, fuel-indexed: getTx n is the transaction lookup
answered at the nth attempt and k the current attempt index; when the
transaction is included the receipt is fetched and the terminal status
returned, otherwise the loop re-arms after the 1 second timer. none means
the loop is still polling after fuel attempts: there is no timeout branch. -/
def poll (getTx : ℕ → Option TxLookup) (receipt : Option Receipt) :
    ℕ → ℕ → Option Bool
  | 0, _ => none
  | fuel + 1, k =>
    if txIncluded (getTx k) then some (receiptSuccess receipt)
    else poll getTx receipt fuel (k + 1)

/-- The promise executor of confirmTransaction: resolve with Transaction
complete on success, reject with Transaction failed otherwise. -/
def confirmSettle (didSucceed : Bool) : Except String String :=
  if didSucceed then .ok "Transaction complete" else .error "Transaction failed"

/-- confirmTransaction as observed through the poll loop: none while the
transaction is not yet included within the given fuel, otherwise the
settled promise. -/
def confirmTransaction (getTx : ℕ → Option TxLookup) (receipt : Option Receipt)
    (fuel : ℕ) : Option (Except String String) :=
  (poll getTx receipt fuel 0).map confirmSettle

/-! Order JSON adapters, current (nested, snake_case) wire schema. -/

/-- Current-schema wire order: snake_case keys, embedded account objects,
numeric fields as decimal strings, enum fields as wire numbers. -/
structure WireOrder where
  order_hash : String
  hash : String
  cancelled : Bool
  finalized : Bool
  marked_invalid : Bool
  metadata : String
  exchange : String
  maker : WireAccount
  taker : WireAccount
  fee_recipient : WireAccount
  maker_relayer_fee : String
  taker_relayer_fee : String
  maker_protocol_fee : String
  taker_protocol_fee : String
  fee_method : ℕ
  side : ℕ
  sale_kind : ℕ
  target : String
  how_to_call : ℕ
  calldata : String
  replacement_pattern : String
  static_target : String
  static_extradata : String
  payment_token : String
  base_price : String
  extra : String
  listing_time : String
  expiration_time : String
  salt : String
  v : ℕ
  r : String
  s : String
  asset : String
deriving DecidableEq, Repr

/-- orderFromJSON from wyvern.ts for the current schema; dateNowSeconds is
the wall clock reading used by the derived currentPrice, which the source
computes with the default parameters (backtrack 30 seconds, round up). -/
def orderFromJSON (w : WireOrder) (dateNowSeconds : ℚ) : Order :=
  let fromJSON : Order :=
    { hash := if w.order_hash ≠ "" then w.order_hash else w.hash
      cancelledOrFinalized := w.cancelled || w.finalized
      markedInvalid := w.marked_invalid
      metadata := w.metadata
      exchange := w.exchange
      makerAccount := w.maker
      takerAccount := w.maker
      maker := w.maker.address
      taker := w.taker.address
      makerRelayerFee := bigNumberOfString w.maker_relayer_fee
      takerRelayerFee := bigNumberOfString w.taker_relayer_fee
      makerProtocolFee := bigNumberOfString w.maker_protocol_fee
      takerProtocolFee := bigNumberOfString w.taker_protocol_fee
      feeMethod := w.fee_method
      feeRecipientAccount := w.fee_recipient
      feeRecipient := w.fee_recipient.address
      side := w.side
      saleKind := w.sale_kind
      target := w.target
      howToCall := w.how_to_call
      calldata := w.calldata
      replacementPattern := w.replacement_pattern
      staticTarget := w.static_target
      staticExtradata := w.static_extradata
      paymentToken := w.payment_token
      basePrice := bigNumberOfString w.base_price
      extra := bigNumberOfString w.extra
      listingTime := bigNumberOfString w.listing_time
      expirationTime := bigNumberOfString w.expiration_time
      salt := bigNumberOfString w.salt
      v := w.v
      r := w.r
      s := w.s
      asset := w.asset
      currentPrice := none }
  { fromJSON with
    currentPrice := some (estimateCurrentPrice fromJSON dateNowSeconds 30 true) }

/-- The asJSON object orderToJSON assembles before the hash is attached:
camelCase keys, addresses lowercased, numeric fields stringified. -/
structure OrderJSONBody where
  exchange : String
  maker : String
  taker : String
  makerRelayerFee : String
  takerRelayerFee : String
  makerProtocolFee : String
  takerProtocolFee : String
  feeMethod : String
  feeRecipient : String
  side : String
  saleKind : String
  target : String
  howToCall : String
  calldata : String
  replacementPattern : String
  staticTarget : String
  staticExtradata : String
  paymentToken : String
  basePrice : String
  extra : String
  listingTime : String
  expirationTime : String
  salt : String
deriving DecidableEq, Repr

/-- The wire order orderToJSON returns: the body plus the hash computed by
the external protocol library and the passed-through metadata. -/
structure OrderJSON extends OrderJSONBody where
  hash : String
  metadata : String
deriving DecidableEq, Repr

/-- orderToJSON from wyvern.ts. getOrderHashHex stands for the canonical
order-hashing routine WyvernProtocol.getOrderHashHex of the external
protocol library, applied to the assembled body. -/
def orderToJSON (getOrderHashHex : OrderJSONBody → String) (order : Order) :
    OrderJSON :=
  let asJSON : OrderJSONBody :=
    { exchange := asLowercase order.exchange
      maker := asLowercase order.maker
      taker := asLowercase order.taker
      makerRelayerFee := bigNumberToString order.makerRelayerFee
      takerRelayerFee := bigNumberToString order.takerRelayerFee
      makerProtocolFee := bigNumberToString order.makerProtocolFee
      takerProtocolFee := bigNumberToString order.takerProtocolFee
      feeMethod := natToDecimalString order.feeMethod
      feeRecipient := asLowercase order.feeRecipient
      side := natToDecimalString order.side
      saleKind := natToDecimalString order.saleKind
      target := asLowercase order.target
      howToCall := natToDecimalString order.howToCall
      calldata := order.calldata
      replacementPattern := order.replacementPattern
      staticTarget := asLowercase order.staticTarget
      staticExtradata := order.staticExtradata
      paymentToken := asLowercase order.paymentToken
      basePrice := bigNumberToString order.basePrice
      extra := bigNumberToString order.extra
      listingTime := bigNumberToString order.listingTime
      expirationTime := bigNumberToString order.expirationTime
      salt := bigNumberToString order.salt }
  { asJSON with hash := getOrderHashHex asJSON, metadata := order.metadata }

/-! Asset ownership resolution: the owner-of classification branch of
findAsset (the source lowercases the fetched owner, then classifies). -/

/-- The owner classification of findAsset once the owner-of query yielded
an owner: the source lowercases the fetched owner string, then returns
proxy when a proxy is given and the owner equals it, account when the owner
equals the account, unknown when the lowercased owner is the string 0x that
contracts return for a zero value, and other otherwise. -/
def classifyOwner (account proxy owner : String) : String :=
  let ownerLc := asLowercase owner
  if proxy ≠ "" ∧ asLowercase ownerLc = asLowercase proxy then "proxy"
  else if asLowercase ownerLc = asLowercase account then "account"
  else if ownerLc = "0x" then "unknown"
  else "other"

/-! Well-formedness of wire numeric fields: the data-model invariant says
monetary and time fields travel as decimal strings of non-negative
integers. -/

/-- A wire string holding the canonical decimal print of a natural. -/
def IsDecimalString (s : String) : Prop := ∃ n : ℕ, s = natToDecimalString n

/-- Well-formed current-schema wire order: every numeric field is a
canonical decimal integer string. -/
def WellFormedWire (w : WireOrder) : Prop :=
  IsDecimalString w.maker_relayer_fee ∧ IsDecimalString w.taker_relayer_fee ∧
  IsDecimalString w.maker_protocol_fee ∧ IsDecimalString w.taker_protocol_fee ∧
  IsDecimalString w.base_price ∧ IsDecimalString w.extra ∧
  IsDecimalString w.listing_time ∧ IsDecimalString w.expiration_time ∧
  IsDecimalString w.salt

/-! Concrete sample values used to instantiate the theorems below. -/

/-- A sample embedded wire account. -/
def sampleAccount : WireAccount := { address := "0xMakerAddr", config := "affiliate" }

/-- A sample Dutch-auction sell order: one hour auction from basePrice 1000
down to 900. -/
def sampleDutchSellOrder : Order :=
  { hash := "0xhash"
    cancelledOrFinalized := false
    markedInvalid := false
    metadata := "meta"
    exchange := "0xExchange"
    makerAccount := sampleAccount
    takerAccount := sampleAccount
    feeRecipientAccount := sampleAccount
    maker := "0xMakerAddr"
    taker := "0xTakerAddr"
    makerRelayerFee := 250
    takerRelayerFee := 0
    makerProtocolFee := 0
    takerProtocolFee := 0
    feeMethod := 1
    feeRecipient := "0xFeeRecip"
    side := OrderSide.Sell
    saleKind := SaleKind.DutchAuction
    target := "0xTarget"
    howToCall := 0
    calldata := "0xcd"
    replacementPattern := "0xrp"
    staticTarget := "0x0"
    staticExtradata := "0x"
    paymentToken := "0x0"
    basePrice := 1000
    extra := 100
    listingTime := 0
    expirationTime := 3600
    salt := 7
    v := 27
    r := "0xr"
    s := "0xs"
    asset := "asset"
    currentPrice := none }

/-- A sample fixed-price order with integer base price. -/
def sampleFixedOrder : Order :=
  { sampleDutchSellOrder with saleKind := SaleKind.FixedPrice, basePrice := 42 }

/-- A sample well-formed current-schema wire order. -/
def sampleWireOrder : WireOrder :=
  { order_hash := "0xorderhash"
    hash := ""
    cancelled := false
    finalized := false
    marked_invalid := false
    metadata := "meta"
    exchange := "0xEXchange"
    maker := { address := "0xMakerA", config := "cfgA" }
    taker := { address := "0xTakerB", config := "cfgB" }
    fee_recipient := { address := "0xFeeC", config := "cfgC" }
    maker_relayer_fee := "0"
    taker_relayer_fee := "0"
    maker_protocol_fee := "0"
    taker_protocol_fee := "0"
    fee_method := 1
    side := 1
    sale_kind := 0
    target := "0xTarGet"
    how_to_call := 0
    calldata := "0xcd"
    replacement_pattern := "0xrp"
    static_target := "0xST"
    static_extradata := "0xse"
    payment_token := "0xPayTok"
    base_price := "0"
    extra := "0"
    listing_time := "0"
    expiration_time := "0"
    salt := "0"
    v := 27
    r := "0xr"
    s := "0xs"
    asset := "a" }

end Wyvern

namespace Wyvern

/-- C1: for a Dutch-auction order, with now = wall clock minus
secondsToBacktrack and diff = extra * (now - listingTime) /
(expirationTime - listingTime), the estimator returns basePrice - diff on
the sell side and basePrice + diff on the buy side; the linear formula is
evaluated as-is for every now, with no clamping to the auction window, and
with rounding up the result is the ceiling of that same value. -/
theorem estimateCurrentPrice_dutchAuction (o : Order)
    (dateNowSeconds secondsToBacktrack : ℚ)
    (hsk : o.saleKind = SaleKind.DutchAuction) :
    estimateCurrentPrice o dateNowSeconds secondsToBacktrack false =
      (if o.side = OrderSide.Sell then
        o.basePrice - o.extra * ((dateNowSeconds - secondsToBacktrack) - o.listingTime) /
          (o.expirationTime - o.listingTime)
      else
        o.basePrice + o.extra * ((dateNowSeconds - secondsToBacktrack) - o.listingTime) /
          (o.expirationTime - o.listingTime)) ∧
    estimateCurrentPrice o dateNowSeconds secondsToBacktrack true =
      (⌈(if o.side = OrderSide.Sell then
        o.basePrice - o.extra * ((dateNowSeconds - secondsToBacktrack) - o.listingTime) /
          (o.expirationTime - o.listingTime)
      else
        o.basePrice + o.extra * ((dateNowSeconds - secondsToBacktrack) - o.listingTime) /
          (o.expirationTime - o.listingTime))⌉ : ℚ) := by
  constructor <;>
    simp [estimateCurrentPrice, exactPriceOf, hsk, SaleKind.DutchAuction,
      SaleKind.FixedPrice]

/-- C1 witness: the sample Dutch-auction sell order evaluated half way
through the auction window prices at 950. -/
theorem estimateCurrentPrice_dutchAuction_witness :
    estimateCurrentPrice sampleDutchSellOrder 1830 30 false = 950 := by
  have h := (estimateCurrentPrice_dutchAuction sampleDutchSellOrder 1830 30 rfl).1
  rw [h]
  norm_num [sampleDutchSellOrder, OrderSide.Sell]

/-- C3: for a fixed-price order whose basePrice is an integer (the wire
invariant for monetary fields), the estimator returns exactly basePrice,
whatever the wall clock, the backtrack and the rounding flag. -/
theorem estimateCurrentPrice_fixedPrice (o : Order)
    (dateNowSeconds secondsToBacktrack : ℚ) (shouldRoundUp : Bool)
    (hsk : o.saleKind = SaleKind.FixedPrice)
    (n : ℤ) (hbp : o.basePrice = (n : ℚ)) :
    estimateCurrentPrice o dateNowSeconds secondsToBacktrack shouldRoundUp =
      o.basePrice := by
  cases shouldRoundUp <;>
    simp [estimateCurrentPrice, exactPriceOf, hsk, SaleKind.FixedPrice, hbp,
      Int.ceil_intCast]

/-- C3 witness: the sample fixed-price order prices at its basePrice 42 at
an arbitrary time, with and without rounding. -/
theorem estimateCurrentPrice_fixedPrice_witness :
    estimateCurrentPrice sampleFixedOrder 123456 30 true = 42 ∧
    estimateCurrentPrice sampleFixedOrder 987654 0 false = 42 :=
  ⟨estimateCurrentPrice_fixedPrice sampleFixedOrder 123456 30 true rfl 42 rfl,
   estimateCurrentPrice_fixedPrice sampleFixedOrder 987654 0 false rfl 42 rfl⟩

/-- C4: with shouldRoundUp the estimator returns an integer value, the
smallest integer greater than or equal to the exact computed price; without
it the exact unrounded price is returned. -/
theorem estimateCurrentPrice_rounding (o : Order)
    (dateNowSeconds secondsToBacktrack : ℚ) :
    estimateCurrentPrice o dateNowSeconds secondsToBacktrack false =
      exactPriceOf o dateNowSeconds secondsToBacktrack ∧
    ∃ k : ℤ,
      estimateCurrentPrice o dateNowSeconds secondsToBacktrack true = (k : ℚ) ∧
      exactPriceOf o dateNowSeconds secondsToBacktrack ≤ (k : ℚ) ∧
      ∀ m : ℤ, exactPriceOf o dateNowSeconds secondsToBacktrack ≤ (m : ℚ) →
        k ≤ m := by
  refine ⟨by simp [estimateCurrentPrice], ⟨⌈exactPriceOf o dateNowSeconds secondsToBacktrack⌉, by simp [estimateCurrentPrice], Int.le_ceil _, ?_⟩⟩
  intro m hm
  exact Int.ceil_le.mpr hm

/-- C4 witness: the sample Dutch-auction order a quarter through the window
prices exactly at 975, so the rounded and unrounded values agree there;
the rounded value is an integer at least the exact price. -/
theorem estimateCurrentPrice_rounding_witness :
    estimateCurrentPrice sampleDutchSellOrder 930 30 false =
      exactPriceOf sampleDutchSellOrder 930 30 ∧
    ∃ k : ℤ,
      estimateCurrentPrice sampleDutchSellOrder 930 30 true = (k : ℚ) ∧
      exactPriceOf sampleDutchSellOrder 930 30 ≤ (k : ℚ) ∧
      ∀ m : ℤ, exactPriceOf sampleDutchSellOrder 930 30 ≤ (m : ℚ) → k ≤ m :=
  estimateCurrentPrice_rounding sampleDutchSellOrder 930 30

/-- C2: on a 65-byte signature buffer, the parser first reads the r,s,v
layout (r = bytes 0 to 31, s = bytes 32 to 63, v = byte 64) and returns
that result when its v is 27 or 28; otherwise it reads the v,r,s layout
(v = byte 0 plus 27 when that byte is below 27, r = bytes 1 to 32,
s = bytes 33 to 64) and returns that result when its v is 27 or 28. -/
theorem parseSignatureHex_layouts (sig : List ℕ) (h65 : sig.length = 65) :
    (sig.getD 64 0 = 27 ∨ sig.getD 64 0 = 28 →
      parseSignatureHex sig =
        .ok ⟨sig.getD 64 0, sig.take 32, (sig.drop 32).take 32⟩) ∧
    (¬(sig.getD 64 0 = 27 ∨ sig.getD 64 0 = 28) →
      (if sig.getD 0 0 < 27 then sig.getD 0 0 + 27 else sig.getD 0 0) = 27 ∨
      (if sig.getD 0 0 < 27 then sig.getD 0 0 + 27 else sig.getD 0 0) = 28 →
      parseSignatureHex sig =
        .ok ⟨if sig.getD 0 0 < 27 then sig.getD 0 0 + 27 else sig.getD 0 0,
             (sig.drop 1).take 32, (sig.drop 33).take 32⟩) := by
  have hunf : parseSignatureHex sig =
      if (parseSignatureHexAsRSV sig).v ∈ validVParamValues then
        Except.ok (parseSignatureHexAsRSV sig)
      else if (parseSignatureHexAsVRS sig).v ∈ validVParamValues then
        Except.ok (parseSignatureHexAsVRS sig)
      else Except.error "Invalid signature" := rfl
  have hm : ∀ x : ℕ, x ∈ validVParamValues ↔ x = 27 ∨ x = 28 := by
    intro x
    simp [validVParamValues]
  constructor
  · intro hv
    have h1 : (parseSignatureHexAsRSV sig).v ∈ validVParamValues := (hm _).mpr hv
    rw [hunf, if_pos h1]
    rfl
  · intro hv hv2
    have h1 : (parseSignatureHexAsRSV sig).v ∉ validVParamValues :=
      fun hc => hv ((hm _).mp hc)
    have h2 : (parseSignatureHexAsVRS sig).v ∈ validVParamValues := (hm _).mpr hv2
    rw [hunf, if_neg h1, if_pos h2]
    rfl

/-- C2 witness: a buffer of 64 zero bytes followed by 27 parses in the
r,s,v layout with v = 27; a buffer whose first byte is 1 followed by 64
bytes of value 5 parses in the v,r,s layout with v = 28. -/
theorem parseSignatureHex_layouts_witness :
    parseSignatureHex (List.replicate 64 0 ++ [27]) =
      .ok ⟨27, List.replicate 32 0, List.replicate 32 0⟩ ∧
    parseSignatureHex (1 :: List.replicate 64 5) =
      .ok ⟨28, List.replicate 32 5, List.replicate 32 5⟩ := by
  constructor
  · have h := (parseSignatureHex_layouts (List.replicate 64 0 ++ [27])
      (by decide)).1 (by decide)
    rw [h]
    rfl
  · have h := (parseSignatureHex_layouts (1 :: List.replicate 64 5)
      (by decide)).2 (by decide) (by decide)
    rw [h]
    rfl

/-- C5: on a 65-byte buffer the parser returns the Invalid signature error
exactly when neither layout yields a v in the valid set: byte 64 is not 27
or 28, and byte 0 after the below-27 normalization is not 27 or 28; the
only error ever produced is that one, and otherwise a parsed signature is
returned. -/
theorem parseSignatureHex_error_iff (sig : List ℕ) (h65 : sig.length = 65) :
    (parseSignatureHex sig = .error "Invalid signature" ↔
      (¬(sig.getD 64 0 = 27 ∨ sig.getD 64 0 = 28) ∧
       ¬((if sig.getD 0 0 < 27 then sig.getD 0 0 + 27 else sig.getD 0 0) = 27 ∨
         (if sig.getD 0 0 < 27 then sig.getD 0 0 + 27 else sig.getD 0 0) = 28))) ∧
    (∀ e, parseSignatureHex sig = .error e → e = "Invalid signature") ∧
    (¬(∃ e, parseSignatureHex sig = .error e) →
      ∃ ec, parseSignatureHex sig = .ok ec) := by
  have hunf : parseSignatureHex sig =
      if (parseSignatureHexAsRSV sig).v ∈ validVParamValues then
        Except.ok (parseSignatureHexAsRSV sig)
      else if (parseSignatureHexAsVRS sig).v ∈ validVParamValues then
        Except.ok (parseSignatureHexAsVRS sig)
      else Except.error "Invalid signature" := rfl
  have hm : ∀ x : ℕ, x ∈ validVParamValues ↔ x = 27 ∨ x = 28 := by
    intro x
    simp [validVParamValues]
  refine ⟨⟨?_, ?_⟩, ?_, ?_⟩
  · intro herr
    by_cases h1 : (parseSignatureHexAsRSV sig).v ∈ validVParamValues
    · rw [hunf, if_pos h1] at herr
      exact Except.noConfusion herr
    · by_cases h2 : (parseSignatureHexAsVRS sig).v ∈ validVParamValues
      · rw [hunf, if_neg h1, if_pos h2] at herr
        exact Except.noConfusion herr
      · exact ⟨fun hc => h1 ((hm _).mpr hc), fun hc => h2 ((hm _).mpr hc)⟩
  · rintro ⟨hv1, hv2⟩
    have h1 : (parseSignatureHexAsRSV sig).v ∉ validVParamValues :=
      fun hc => hv1 ((hm _).mp hc)
    have h2 : (parseSignatureHexAsVRS sig).v ∉ validVParamValues :=
      fun hc => hv2 ((hm _).mp hc)
    rw [hunf, if_neg h1, if_neg h2]
  · intro e he
    by_cases h1 : (parseSignatureHexAsRSV sig).v ∈ validVParamValues
    · rw [hunf, if_pos h1] at he
      exact Except.noConfusion he
    · by_cases h2 : (parseSignatureHexAsVRS sig).v ∈ validVParamValues
      · rw [hunf, if_neg h1, if_pos h2] at he
        exact Except.noConfusion he
      · rw [hunf, if_neg h1, if_neg h2] at he
        exact (Except.error.inj he).symm
  · intro hok
    by_cases h1 : (parseSignatureHexAsRSV sig).v ∈ validVParamValues
    · exact ⟨_, by rw [hunf, if_pos h1]⟩
    · by_cases h2 : (parseSignatureHexAsVRS sig).v ∈ validVParamValues
      · exact ⟨_, by rw [hunf, if_neg h1, if_pos h2]⟩
      · exact absurd ⟨_, by rw [hunf, if_neg h1, if_neg h2]⟩ hok

/-- C5 witness: a 65-byte buffer whose first byte is 30 and last byte is 0
fails both layouts and is rejected with the Invalid signature error, and
a buffer ending in 28 is accepted with no error. -/
theorem parseSignatureHex_error_iff_witness :
    parseSignatureHex (30 :: List.replicate 64 0) = .error "Invalid signature" ∧
    ¬ parseSignatureHex (List.replicate 64 9 ++ [28]) =
        .error "Invalid signature" := by
  constructor
  · exact ((parseSignatureHex_error_iff (30 :: List.replicate 64 0)
      (by decide)).1).mpr (by decide)
  · intro h
    have h2 := ((parseSignatureHex_error_iff (List.replicate 64 9 ++ [28])
      (by decide)).1).mp h
    exact absurd (Or.inr (by decide)) h2.1

/-- Helper: when no lookup ever reports block inclusion, the poll loop
never produces an outcome, whatever the fuel. -/
theorem poll_none_of_never (getTx : ℕ → Option TxLookup) (receipt : Option Receipt)
    (hnever : ∀ n, txIncluded (getTx n) = false) :
    ∀ fuel k, poll getTx receipt fuel k = none := by
  intro fuel
  induction fuel with
  | zero => intro k; rfl
  | succ f ih =>
    intro k
    rw [poll, if_neg (by rw [hnever k]; exact Bool.false_ne_true)]
    exact ih (k + 1)

/-- Helper: once some lookup within the fuel budget reports inclusion, the
poll loop produces an outcome. -/
theorem poll_ne_none_of_included (getTx : ℕ → Option TxLookup)
    (receipt : Option Receipt) :
    ∀ fuel k n, n < fuel → txIncluded (getTx (k + n)) = true →
      poll getTx receipt fuel k ≠ none := by
  intro fuel
  induction fuel with
  | zero => intro k n hn; omega
  | succ f ih =>
    intro k n hn hinc
    by_cases hk : txIncluded (getTx k) = true
    · rw [poll, if_pos hk]
      exact Option.some_ne_none _
    · have hn0 : n ≠ 0 := by
        rintro rfl
        exact hk (by simpa using hinc)
      rw [poll, if_neg hk]
      have : (k + 1) + (n - 1) = k + n := by omega
      exact ih (k + 1) (n - 1) (by omega) (by rw [this]; exact hinc)

/-- Helper: every outcome the poll loop produces is the success status
determined from the receipt. -/
theorem poll_some_eq (getTx : ℕ → Option TxLookup) (receipt : Option Receipt) :
    ∀ fuel k b, poll getTx receipt fuel k = some b → b = receiptSuccess receipt := by
  intro fuel
  induction fuel with
  | zero => intro k b h; exact Option.noConfusion h
  | succ f ih =>
    intro k b h
    by_cases hk : txIncluded (getTx k) = true
    · rw [poll, if_pos hk] at h
      exact (Option.some.inj h).symm
    · rw [poll, if_neg hk] at h
      exact ih (k + 1) b h

/-- C6: the confirmation promise resolves exactly when the poll outcome is
success and rejects exactly when it is failure; success holds iff the
receipt is absent or carries status 1, failure iff a receipt is present
with status different from 1; without block inclusion the loop keeps
polling (outcome none for every fuel), so no timeout rejection exists, and
once a lookup reports inclusion an outcome is produced. -/
theorem confirmTransaction_spec (getTx : ℕ → Option TxLookup)
    (receipt : Option Receipt) :
    (∀ fuel k, (∀ n, txIncluded (getTx n) = false) →
      poll getTx receipt fuel k = none) ∧
    (∀ fuel k n, n < fuel → txIncluded (getTx (k + n)) = true →
      poll getTx receipt fuel k ≠ none) ∧
    (∀ fuel k b, poll getTx receipt fuel k = some b →
      b = receiptSuccess receipt) ∧
    (receiptSuccess receipt = true ↔
      receipt = none ∨ ∃ rc, receipt = some rc ∧ rc.status.getD 0 = 1) ∧
    (receiptSuccess receipt = false ↔
      ∃ rc, receipt = some rc ∧ rc.status.getD 0 ≠ 1) ∧
    (∀ fuel, confirmTransaction getTx receipt fuel =
        some (Except.ok "Transaction complete") ↔
      poll getTx receipt fuel 0 = some true) ∧
    (∀ fuel, confirmTransaction getTx receipt fuel =
        some (Except.error "Transaction failed") ↔
      poll getTx receipt fuel 0 = some false) := by
  refine ⟨fun fuel k h => poll_none_of_never getTx receipt h fuel k,
    poll_ne_none_of_included getTx receipt,
    poll_some_eq getTx receipt, ?_, ?_, ?_, ?_⟩
  · cases receipt with
    | none => simp [receiptSuccess]
    | some rc =>
      simp only [receiptSuccess]
      constructor
      · intro h
        exact Or.inr ⟨rc, rfl, by simpa using h⟩
      · rintro (h | ⟨rc2, hrc, h⟩)
        · exact Option.noConfusion h
        · simp [Option.some.inj hrc ▸ h]
  · cases receipt with
    | none => simp [receiptSuccess]
    | some rc =>
      simp only [receiptSuccess]
      constructor
      · intro h
        refine ⟨rc, rfl, ?_⟩
        simpa using h
      · rintro ⟨rc2, hrc, h⟩
        simp [Option.some.inj hrc ▸ h]
  · intro fuel
    unfold confirmTransaction
    cases hp : poll getTx receipt fuel 0 with
    | none => simp
    | some b => cases b <;> simp [confirmSettle]
  · intro fuel
    unfold confirmTransaction
    cases hp : poll getTx receipt fuel 0 with
    | none => simp
    | some b => cases b <;> simp [confirmSettle]

/-- C6 witness: with an immediately included transaction, a receipt of
status 1 resolves the promise and a receipt of status 0 rejects it. -/
theorem confirmTransaction_spec_witness :
    confirmTransaction (fun _ => some ⟨some "0xabc"⟩) (some ⟨some 1⟩) 1 =
      some (Except.ok "Transaction complete") ∧
    confirmTransaction (fun _ => some ⟨some "0xabc"⟩) (some ⟨some 0⟩) 1 =
      some (Except.error "Transaction failed") := by
  constructor
  · exact ((confirmTransaction_spec (fun _ => some ⟨some "0xabc"⟩)
      (some ⟨some 1⟩)).2.2.2.2.2.1 1).mpr (by decide)
  · exact ((confirmTransaction_spec (fun _ => some ⟨some "0xabc"⟩)
      (some ⟨some 0⟩)).2.2.2.2.2.2 1).mpr (by decide)

/-- Helper: appending a callback to the tracked hash appends it in that
entry of the registry. -/
theorem lookupCallbacks_map_self (m : TxCallbacks) (txHash : String) (cb : ℕ) :
    lookupCallbacks
      (m.map fun p => if p.1 = txHash then (p.1, p.2 ++ [cb]) else p) txHash =
      (lookupCallbacks m txHash).map (fun l => l ++ [cb]) := by
  induction m with
  | nil => rfl
  | cons p rest ih =>
    by_cases hp : p.1 = txHash
    · simp [lookupCallbacks, hp]
    · simp [lookupCallbacks, hp, ih]

/-- Helper: appending a callback to the tracked hash leaves every other
entry of the registry unchanged. -/
theorem lookupCallbacks_map_ne (m : TxCallbacks) (txHash h2 : String) (cb : ℕ)
    (hne : h2 ≠ txHash) :
    lookupCallbacks
      (m.map fun p => if p.1 = txHash then (p.1, p.2 ++ [cb]) else p) h2 =
      lookupCallbacks m h2 := by
  induction m with
  | nil => rfl
  | cons p rest ih =>
    by_cases hp : p.1 = txHash
    · have hp2 : ¬ p.1 = h2 := by rw [hp]; exact fun h => hne h.symm
      simp [lookupCallbacks, hp, hp2, ih, Ne.symm hne]
    · by_cases hp2 : p.1 = h2 <;> simp [lookupCallbacks, hp, hp2, ih, hne]

/-- Helper: after the delete of the finalization step, the hash is no
longer in the registry. -/
theorem lookupCallbacks_filter_self (m : TxCallbacks) (txHash : String) :
    lookupCallbacks (m.filter fun p => ¬ p.1 = txHash) txHash = none := by
  induction m with
  | nil => rfl
  | cons p rest ih =>
    by_cases hp : p.1 = txHash
    · simpa [List.filter, hp] using ih
    · simpa [List.filter, lookupCallbacks, hp] using ih

/-- C7: registering a callback for an already tracked hash starts no new
poll loop and only appends the callback to that hash entry, leaving every
other hash untouched; finalization then invokes exactly the registered
callbacks, in registration order, all with the same status, and removes
the entry from the registry. -/
theorem track_dedup (m : TxCallbacks) (txHash : String) (cb : ℕ)
    (cbs : List ℕ) (htr : lookupCallbacks m txHash = some cbs) :
    (track m txHash cb).2 = false ∧
    lookupCallbacks (track m txHash cb).1 txHash = some (cbs ++ [cb]) ∧
    (∀ h2, h2 ≠ txHash →
      lookupCallbacks (track m txHash cb).1 h2 = lookupCallbacks m h2) ∧
    (∀ status : Bool,
      (finalizePoll (track m txHash cb).1 txHash status).1 =
        (cbs ++ [cb]).map (fun c => (c, status))) ∧
    (∀ status : Bool,
      lookupCallbacks (finalizePoll (track m txHash cb).1 txHash status).2
        txHash = none) := by
  have htrack : track m txHash cb =
      (m.map fun p => if p.1 = txHash then (p.1, p.2 ++ [cb]) else p, false) := by
    unfold track
    rw [htr]
  have hlook : lookupCallbacks (track m txHash cb).1 txHash =
      some (cbs ++ [cb]) := by
    rw [htrack]
    simp [lookupCallbacks_map_self, htr]
  refine ⟨by rw [htrack], hlook, ?_, ?_, ?_⟩
  · intro h2 hne
    rw [htrack]
    exact lookupCallbacks_map_ne m txHash h2 cb hne
  · intro status
    unfold finalizePoll
    rw [hlook]
    rfl
  · intro status
    unfold finalizePoll
    exact lookupCallbacks_filter_self _ txHash

/-- C7 witness: with hash 0xt tracked holding callback 1, registering
callback 2 starts no poller, yields the list 1 then 2, and finalizing with
status true invokes both in order and removes the entry. -/
theorem track_dedup_witness :
    (track [("0xt", [1])] "0xt" 2).2 = false ∧
    lookupCallbacks (track [("0xt", [1])] "0xt" 2).1 "0xt" = some [1, 2] ∧
    (finalizePoll (track [("0xt", [1])] "0xt" 2).1 "0xt" true).1 =
      [(1, true), (2, true)] ∧
    lookupCallbacks (finalizePoll (track [("0xt", [1])] "0xt" 2).1 "0xt" true).2
      "0xt" = none := by
  have h := track_dedup [("0xt", [1])] "0xt" 2 [1] (by rfl)
  exact ⟨h.1, h.2.1, h.2.2.2.1 true, h.2.2.2.2 true⟩

/-- C9: once the owner-of query yielded an owner, findAsset works on the
lowercased owner and classifies it, in this order: proxy when a proxy is
given and the owner equals it (compared lowercased), account when the
owner equals the account (compared lowercased), unknown when the
lowercased owner is the string 0x that contracts return for a zero value,
and other otherwise. -/
theorem classifyOwner_cases (account proxy owner : String) :
    ((proxy ≠ "" ∧ asLowercase (asLowercase owner) = asLowercase proxy) →
      classifyOwner account proxy owner = "proxy") ∧
    (¬(proxy ≠ "" ∧ asLowercase (asLowercase owner) = asLowercase proxy) →
      asLowercase (asLowercase owner) = asLowercase account →
      classifyOwner account proxy owner = "account") ∧
    (¬(proxy ≠ "" ∧ asLowercase (asLowercase owner) = asLowercase proxy) →
      ¬ asLowercase (asLowercase owner) = asLowercase account →
      asLowercase owner = "0x" →
      classifyOwner account proxy owner = "unknown") ∧
    (¬(proxy ≠ "" ∧ asLowercase (asLowercase owner) = asLowercase proxy) →
      ¬ asLowercase (asLowercase owner) = asLowercase account →
      ¬ asLowercase owner = "0x" →
      classifyOwner account proxy owner = "other") := by
  have hunf : classifyOwner account proxy owner =
      if proxy ≠ "" ∧ asLowercase (asLowercase owner) = asLowercase proxy then
        "proxy"
      else if asLowercase (asLowercase owner) = asLowercase account then
        "account"
      else if asLowercase owner = "0x" then "unknown"
      else "other" := rfl
  refine ⟨?_, ?_, ?_, ?_⟩
  · intro h1
    rw [hunf, if_pos h1]
  · intro h1 h2
    rw [hunf, if_neg h1, if_pos h2]
  · intro h1 h2 h3
    rw [hunf, if_neg h1, if_neg h2, if_pos h3]
  · intro h1 h2 h3
    rw [hunf, if_neg h1, if_neg h2, if_neg h3]

/-- C9 witness: an owner equal to the proxy up to case classifies as
proxy; the 0x owner with unrelated proxy and account classifies as
unknown; an unrelated owner classifies as other. -/
theorem classifyOwner_cases_witness :
    classifyOwner "0xacc" "0xPro" "0xPRO" = "proxy" ∧
    classifyOwner "0xacc" "0xpro" "0x" = "unknown" ∧
    classifyOwner "0xacc" "0xpro" "0xelse" = "other" := by
  refine ⟨?_, ?_, ?_⟩
  · exact (classifyOwner_cases "0xacc" "0xPro" "0xPRO").1 (by decide)
  · exact (classifyOwner_cases "0xacc" "0xpro" "0x").2.2.1
      (by decide) (by decide) (by decide)
  · exact (classifyOwner_cases "0xacc" "0xpro" "0xelse").2.2.2
      (by decide) (by decide) (by decide)

/-- C10: for the current wire schema, orderFromJSON fills both makerAccount
and takerAccount from the wire maker object (the wire taker object is
never stored as an account), while the flat maker and taker addresses come
from maker.address and taker.address. -/
theorem orderFromJSON_accounts (w : WireOrder) (dateNowSeconds : ℚ) :
    (orderFromJSON w dateNowSeconds).makerAccount = w.maker ∧
    (orderFromJSON w dateNowSeconds).takerAccount = w.maker ∧
    (orderFromJSON w dateNowSeconds).maker = w.maker.address ∧
    (orderFromJSON w dateNowSeconds).taker = w.taker.address :=
  ⟨rfl, rfl, rfl, rfl⟩

/-- Helper: reading back the character of a decimal digit gives the
digit. -/
theorem digitVal_digitChar (d : ℕ) (hd : d < 10) : digitVal (digitChar d) = d := by
  interval_cases d <;> decide

/-- Helper: folding the decimal parser over a printed digit list recovers
the positional value of the digits. -/
theorem foldl_parse_digits (l : List ℕ) (hl : ∀ d ∈ l, d < 10) :
    ∀ a : ℕ,
      (l.reverse.map digitChar).foldl (fun acc c => 10 * acc + digitVal c) a =
        a * 10 ^ l.length + Nat.ofDigits 10 l := by
  induction l with
  | nil => intro a; simp
  | cons d ds ih =>
    intro a
    have hd : d < 10 := hl d (by simp)
    have hds : ∀ x ∈ ds, x < 10 := fun x hx => hl x (by simp [hx])
    rw [List.reverse_cons, List.map_append, List.foldl_append, ih hds a]
    simp only [List.map_cons, List.map_nil, List.foldl_cons, List.foldl_nil,
      digitVal_digitChar d hd, Nat.ofDigits_cons, List.length_cons]
    ring

/-- Helper: parsing the canonical decimal print of a natural yields that
natural back. -/
theorem parseDecimalNat_natToDecimalString (n : ℕ) :
    parseDecimalNat (natToDecimalString n) = n := by
  by_cases hn : n = 0
  · subst hn
    rfl
  · rw [natToDecimalString, if_neg hn]
    show (((Nat.digits 10 n).reverse.map digitChar).foldl
      (fun acc c => 10 * acc + digitVal c) 0) = n
    rw [foldl_parse_digits (Nat.digits 10 n)
      (fun d hd => Nat.digits_lt_base (by norm_num) hd) 0]
    simp [Nat.ofDigits_digits]

/-- Helper: the BigNumber round trip on a canonical decimal integer string
is the identity. -/
theorem bigNumber_roundTrip (n : ℕ) :
    bigNumberToString (bigNumberOfString (natToDecimalString n)) =
      natToDecimalString n := by
  unfold bigNumberOfString bigNumberToString
  rw [parseDecimalNat_natToDecimalString]
  norm_num

/-- C8: for a well-formed current-schema wire order, orderFromJSON followed
by orderToJSON reproduces every numeric field as its original decimal
string (the enum fields coming back as the decimal strings of their wire
numbers), reproduces every address field lowercased, and passes the bytes
fields and metadata through, whatever hashing function and wall clock are
in effect; the hash and the derived currentPrice are outside the
comparison. -/
theorem orderJSON_roundTrip (w : WireOrder) (dateNowSeconds : ℚ)
    (getOrderHashHex : OrderJSONBody → String) (hwf : WellFormedWire w) :
    (orderToJSON getOrderHashHex (orderFromJSON w dateNowSeconds)).makerRelayerFee
        = w.maker_relayer_fee ∧
    (orderToJSON getOrderHashHex (orderFromJSON w dateNowSeconds)).takerRelayerFee
        = w.taker_relayer_fee ∧
    (orderToJSON getOrderHashHex (orderFromJSON w dateNowSeconds)).makerProtocolFee
        = w.maker_protocol_fee ∧
    (orderToJSON getOrderHashHex (orderFromJSON w dateNowSeconds)).takerProtocolFee
        = w.taker_protocol_fee ∧
    (orderToJSON getOrderHashHex (orderFromJSON w dateNowSeconds)).basePrice
        = w.base_price ∧
    (orderToJSON getOrderHashHex (orderFromJSON w dateNowSeconds)).extra
        = w.extra ∧
    (orderToJSON getOrderHashHex (orderFromJSON w dateNowSeconds)).listingTime
        = w.listing_time ∧
    (orderToJSON getOrderHashHex (orderFromJSON w dateNowSeconds)).expirationTime
        = w.expiration_time ∧
    (orderToJSON getOrderHashHex (orderFromJSON w dateNowSeconds)).salt
        = w.salt ∧
    (orderToJSON getOrderHashHex (orderFromJSON w dateNowSeconds)).feeMethod
        = natToDecimalString w.fee_method ∧
    (orderToJSON getOrderHashHex (orderFromJSON w dateNowSeconds)).side
        = natToDecimalString w.side ∧
    (orderToJSON getOrderHashHex (orderFromJSON w dateNowSeconds)).saleKind
        = natToDecimalString w.sale_kind ∧
    (orderToJSON getOrderHashHex (orderFromJSON w dateNowSeconds)).howToCall
        = natToDecimalString w.how_to_call ∧
    (orderToJSON getOrderHashHex (orderFromJSON w dateNowSeconds)).exchange
        = asLowercase w.exchange ∧
    (orderToJSON getOrderHashHex (orderFromJSON w dateNowSeconds)).maker
        = asLowercase w.maker.address ∧
    (orderToJSON getOrderHashHex (orderFromJSON w dateNowSeconds)).taker
        = asLowercase w.taker.address ∧
    (orderToJSON getOrderHashHex (orderFromJSON w dateNowSeconds)).feeRecipient
        = asLowercase w.fee_recipient.address ∧
    (orderToJSON getOrderHashHex (orderFromJSON w dateNowSeconds)).target
        = asLowercase w.target ∧
    (orderToJSON getOrderHashHex (orderFromJSON w dateNowSeconds)).staticTarget
        = asLowercase w.static_target ∧
    (orderToJSON getOrderHashHex (orderFromJSON w dateNowSeconds)).paymentToken
        = asLowercase w.payment_token ∧
    (orderToJSON getOrderHashHex (orderFromJSON w dateNowSeconds)).calldata
        = w.calldata ∧
    (orderToJSON getOrderHashHex (orderFromJSON w dateNowSeconds)).replacementPattern
        = w.replacement_pattern ∧
    (orderToJSON getOrderHashHex (orderFromJSON w dateNowSeconds)).staticExtradata
        = w.static_extradata ∧
    (orderToJSON getOrderHashHex (orderFromJSON w dateNowSeconds)).metadata
        = w.metadata := by
  have key : ∀ s : String, IsDecimalString s →
      bigNumberToString (bigNumberOfString s) = s := by
    rintro s ⟨n, rfl⟩
    exact bigNumber_roundTrip n
  obtain ⟨hf1, hf2, hf3, hf4, hbp, hex, hlt, het, hsa⟩ := hwf
  exact ⟨key _ hf1, key _ hf2, key _ hf3, key _ hf4, key _ hbp, key _ hex,
    key _ hlt, key _ het, key _ hsa, rfl, rfl, rfl, rfl, rfl, rfl, rfl, rfl,
    rfl, rfl, rfl, rfl, rfl, rfl, rfl⟩

/-- C8 witness: the sample wire order round trips; its numeric fields come
back as the original decimal strings and its maker address comes back
lowercased. -/
theorem orderJSON_roundTrip_witness :
    (orderToJSON (fun _ => "0xfeedface")
        (orderFromJSON sampleWireOrder 1000)).basePrice = "0" ∧
    (orderToJSON (fun _ => "0xfeedface")
        (orderFromJSON sampleWireOrder 1000)).maker = "0xmakera" ∧
    (orderToJSON (fun _ => "0xfeedface")
        (orderFromJSON sampleWireOrder 1000)).side = "1" := by
  have h := orderJSON_roundTrip sampleWireOrder 1000 (fun _ => "0xfeedface")
    ⟨⟨0, rfl⟩, ⟨0, rfl⟩, ⟨0, rfl⟩, ⟨0, rfl⟩, ⟨0, rfl⟩, ⟨0, rfl⟩, ⟨0, rfl⟩,
     ⟨0, rfl⟩, ⟨0, rfl⟩⟩
  refine ⟨?_, ?_, ?_⟩
  · rw [h.2.2.2.2.1]
    rfl
  · rw [h.2.2.2.2.2.2.2.2.2.2.2.2.2.2.1]
    decide
  · rw [h.2.2.2.2.2.2.2.2.2.2.1]
    show natToDecimalString 1 = "1"
    rw [natToDecimalString, if_neg (by norm_num),
      Nat.digits_of_lt 10 1 (by norm_num) (by norm_num)]
    decide

end Wyvern
